import Mathlib

/-
  Shallow embedding of the workflow graph interpreter of
  src/lelamp/service/workflows/workflow_service.py (class WorkflowService).

  Python dicts are modelled as insertion-ordered association lists with a
  first-match lookup and an in-place-replacing update, matching CPython
  dict semantics.  Python dynamic values that can appear in WorkflowState
  (JSON scalars) are modelled by the inductive type `Value`; `pyStr`
  mirrors Python's `str()` on these.  The returned strings of
  `get_next_step` / `complete_step` are modelled by the inductive
  `StepResult`, one constructor per syntactically distinct return site,
  carrying exactly the data interpolated into the string; uncaught Python
  exceptions (ValueError / KeyError / TypeError / AttributeError) are
  further constructors, paired with the object state at the moment of the
  raise (mutations performed before the raise are kept, as in Python).
-/

namespace LeLamp

/-- Python values storable in WorkflowState (JSON scalars). -/
inductive Value where
  | bool : Bool → Value
  | int : Int → Value
  | str : String → Value
  | none : Value
deriving DecidableEq, Repr

/-- Python `str()` applied to a `Value`. -/
def pyStr : Value → String
  | Value.bool true => "True"
  | Value.bool false => "False"
  | Value.int n => toString n
  | Value.str s => s
  | Value.none => "None"

/-- A Python dict with string keys: insertion-ordered association list. -/
abbrev Dict (α : Type) := List (String × α)

/-- `d.get(key)` / `key in d`: first-match lookup. -/
def lookup {α : Type} : Dict α → String → Option α
  | [], _ => Option.none
  | (k, v) :: rest, key => if k = key then some v else lookup rest key

/-- `d[key] = v`: replace in place if present (keeping position), else append. -/
def setKey {α : Type} : Dict α → String → α → Dict α
  | [], key, v => [(key, v)]
  | (k, w) :: rest, key, v =>
      if k = key then (k, v) :: rest else (k, w) :: setKey rest key v

/-- `list(d.keys())`. -/
def keysOf {α : Type} (d : Dict α) : List String := d.map Prod.fst

/-- Modelled from the spec: the `EdgeType` enum of the missing
`lelamp.service.workflows.workflow` module (spec section 3: edge `type`
is NORMAL or CONDITIONAL). -/
inductive EdgeType where
  | NORMAL : EdgeType
  | CONDITIONAL : EdgeType
deriving DecidableEq, Repr

/-- An edge's `target` field is dynamically typed in Python: a single node
id string for NORMAL edges, or a dict from branch key to node id for
CONDITIONAL edges (spec section 3). -/
inductive ETarget where
  | s : String → ETarget
  | m : Dict String → ETarget
deriving DecidableEq, Repr

/-- Modelled from the spec: the `Node` dataclass of the missing
`workflow` module (spec section 3: id, intent, preferredActions). -/
structure Node where
  id : String
  intent : String
  preferred_actions : List String
deriving DecidableEq, Repr

/-- Modelled from the spec: the `Edge` dataclass of the missing
`workflow` module (spec section 3: id, source-keyed, type, target,
optional stateKey). -/
structure Edge where
  id : String
  type : EdgeType
  target : ETarget
  state_key : Option String
deriving DecidableEq, Repr

/-- Modelled from the spec: a state-schema entry (spec section 3:
type tag and default value). -/
structure StateVar where
  type : String
  default : Value
deriving DecidableEq, Repr

/-- Modelled from the spec: the `Workflow` dataclass of the missing
`workflow` module (spec section 3): nodes keyed by id, edges keyed by
source node id (at most one outgoing edge per node), state schema keyed
by variable name. -/
structure Workflow where
  nodes : Dict Node
  edges : Dict Edge
  state_schema : Dict StateVar
deriving DecidableEq, Repr

/-- The mutable fields of `WorkflowService` touched by the interpreter
(the tool-registry and filesystem fields are external glue and carry no
interpreter state). -/
structure WorkflowService where
  active_workflow : Option String
  state : Option (Dict Value)
  workflow_graph : Option Workflow
  current_node : Option Node
  workflow_complete : Bool
deriving DecidableEq, Repr

/-- `WorkflowService.__init__`. -/
def initService : WorkflowService :=
  ⟨Option.none, Option.none, Option.none, Option.none, false⟩

/-- The dict comprehension of `start_workflow` lines 86-89: every declared
variable set to its schema default. -/
def seedState (schema : Dict StateVar) : Dict Value :=
  schema.map (fun p => (p.1, p.2.default))

/-- `WorkflowService.start_workflow` (lines 77-94), after the definition
has been parsed: installs the graph, seeds the state from schema
defaults, clears the pointer and the completion flag.  File reading and
tool loading are external side effects outside the interpreter. -/
def start_workflow (_svc : WorkflowService) (workflow_name : String)
    (wf : Workflow) : WorkflowService :=
  { active_workflow := some workflow_name
    state := some (seedState wf.state_schema)
    workflow_graph := some wf
    current_node := Option.none
    workflow_complete := false }

/-- `WorkflowService.stop_workflow` (lines 96-104). -/
def stop_workflow (_svc : WorkflowService) : WorkflowService :=
  initService

/-- The distinct error values of `_resolve_edge_target` (raised as
ValueError) plus the AttributeError raised when `self.state` is None and
a conditional edge reads it. -/
inductive ResolveErr where
  | targetNotDict : String → ResolveErr
  | missingStateKey : String → ResolveErr
  | noneStateAttr : ResolveErr
  | branchNotFound : String → String → Value → String → List String → ResolveErr
deriving DecidableEq, Repr

/-- The conditional expression of `_resolve_edge_target` lines 435-439:
`"true" if v is True else "false" if v is False else str(v)`. -/
def branchKeyOf (v : Value) : String :=
  if v = Value.bool true then "true"
  else if v = Value.bool false then "false"
  else pyStr v

/-- `WorkflowService._resolve_edge_target` (lines 417-447).  Takes the
current `self.state` (an `Option`, since `__init__`/`stop_workflow` set
it to None). -/
def resolve_edge_target (st? : Option (Dict Value)) (edge : Edge) :
    Except ResolveErr ETarget :=
  match edge.type with
  | EdgeType.NORMAL => Except.ok edge.target
  | EdgeType.CONDITIONAL =>
    match edge.target with
    | ETarget.s _ => Except.error (ResolveErr.targetNotDict edge.id)
    | ETarget.m tmap =>
      match edge.state_key with
      | Option.none => Except.error (ResolveErr.missingStateKey edge.id)
      | some k =>
        if k = "" then Except.error (ResolveErr.missingStateKey edge.id)
        else
          match st? with
          | Option.none => Except.error ResolveErr.noneStateAttr
          | some st =>
            let v := (lookup st k).getD Value.none
            let tk := branchKeyOf v
            match lookup tmap tk with
            | some t => Except.ok (ETarget.s t)
            | Option.none =>
                Except.error (ResolveErr.branchNotFound edge.id k v tk (keysOf tmap))

/-- The step information interpolated into the `get_next_step` string
(lines 308-324): node id, intent, preferred actions, and one
(name, current value, type tag) entry per declared schema variable. -/
structure StepView where
  node_id : String
  intent : String
  preferred_actions : List String
  state_vars : List (String × Value × String)
deriving DecidableEq, Repr

/-- The state-variable section of the step string (lines 318-322):
`self.state.get(key)` per schema entry, shown with the declared type. -/
def snapshot (schema : Dict StateVar) (st : Dict Value) :
    List (String × Value × String) :=
  schema.map (fun p => (p.1, (lookup st p.1).getD Value.none, p.2.type))

def mkView (n : Node) (g : Workflow) (st : Dict Value) : StepView :=
  ⟨n.id, n.intent, n.preferred_actions, snapshot g.state_schema st⟩

/-- The distinct return values of `get_next_step` and `complete_step`,
one constructor per return site, plus the uncaught exceptions. -/
inductive StepResult where
  | errNoWorkflowGraph : StepResult
  | queryComplete : StepResult
  | errNoStartingEdge : StepResult
  | stepView : StepView → StepResult
  | errNoActiveWorkflow : StepResult
  | errNoCurrentNode : StepResult
  | alreadyComplete : StepResult
  | errUnknownVariable : String → List String → StepResult
  | completeNoMoreSteps : StepResult
  | completeReachedEnd : StepResult
  | advanced : String → String → String → List String → StepResult
  | raisedValueError : ResolveErr → StepResult
  | raisedKeyError : String → StepResult
  | raisedTypeError : StepResult
  | raisedAttributeError : StepResult
deriving DecidableEq, Repr

/-- Results whose Python string is prefixed `Error:` (caller-facing error
returns, spec section 7 taxonomy). -/
def isErrorResult : StepResult → Bool
  | StepResult.errNoWorkflowGraph => true
  | StepResult.errNoStartingEdge => true
  | StepResult.errNoActiveWorkflow => true
  | StepResult.errNoCurrentNode => true
  | StepResult.errUnknownVariable _ _ => true
  | _ => false

/-- Results that are completion messages (the spec's CompletionMarker). -/
def isCompletionMarker : StepResult → Bool
  | StepResult.queryComplete => true
  | StepResult.alreadyComplete => true
  | StepResult.completeNoMoreSteps => true
  | StepResult.completeReachedEnd => true
  | _ => false

/-- Building the step string when `self.state` may be None: the state
section iterates the schema calling `self.state.get` (line 321), so a
None state raises AttributeError unless the schema is empty (line 318
guards the whole section behind `if self.workflow_graph.state_schema:`). -/
def viewOf (n : Node) (g : Workflow) (st? : Option (Dict Value)) : StepResult :=
  match st? with
  | some st => StepResult.stepView (mkView n g st)
  | Option.none =>
    if g.state_schema = [] then StepResult.stepView (mkView n g [])
    else StepResult.raisedAttributeError

/-- `WorkflowService.get_next_step` (lines 283-326), returning the result
together with the object state after the call.  On the first call the
pointer is assigned (line 301) before the step string is built, so a
crash while building the string still leaves the pointer set. -/
def get_next_step (svc : WorkflowService) : StepResult × WorkflowService :=
  match svc.workflow_graph with
  | Option.none => (StepResult.errNoWorkflowGraph, svc)
  | some g =>
    if svc.workflow_complete then (StepResult.queryComplete, svc)
    else
      match svc.current_node with
      | some n => (viewOf n g svc.state, svc)
      | Option.none =>
        match lookup g.edges "START" with
        | Option.none => (StepResult.errNoStartingEdge, svc)
        | some e =>
          match e.target with
          | ETarget.m _ => (StepResult.raisedTypeError, svc)
          | ETarget.s tid =>
            match lookup g.nodes tid with
            | Option.none => (StepResult.raisedKeyError tid, svc)
            | some n =>
              (viewOf n g svc.state, { svc with current_node := some n })

/-- Outcome of the update loop of `complete_step` lines 356-363. -/
inductive UpdOutcome where
  | ok : Option (Dict Value) → UpdOutcome
  | unknown : String → Option (Dict Value) → UpdOutcome
  | noneTypeCrash : UpdOutcome
deriving DecidableEq, Repr

/-- The update loop of `complete_step` (lines 356-363): key by key, the
schema membership check first, then the in-place write; stops with
`unknown` at the first undeclared key, KEEPING the writes already made
(the eager lineage flagged in spec section 9).  Writing through a None
state raises TypeError. -/
def applyUpdates (schema : Dict StateVar) :
    List (String × Value) → Option (Dict Value) → UpdOutcome
  | [], st? => UpdOutcome.ok st?
  | (k, v) :: rest, st? =>
    if (lookup schema k).isNone then UpdOutcome.unknown k st?
    else
      match st? with
      | Option.none => UpdOutcome.noneTypeCrash
      | some st => applyUpdates schema rest (some (setKey st k v))

/-- `WorkflowService.complete_step` (lines 328-415).  `state_updates`
is a dict (None and the empty dict behave identically: the loop body
never runs).  The `advanced` result carries the data of the
lines 400-413 string: previous node id, next node id, intent, preferred
actions (no state section there). -/
def complete_step (svc : WorkflowService)
    (state_updates : List (String × Value)) : StepResult × WorkflowService :=
  match svc.workflow_graph with
  | Option.none => (StepResult.errNoActiveWorkflow, svc)
  | some g =>
    match svc.current_node with
    | Option.none => (StepResult.errNoCurrentNode, svc)
    | some n =>
      if svc.workflow_complete then (StepResult.alreadyComplete, svc)
      else
        match applyUpdates g.state_schema state_updates svc.state with
        | UpdOutcome.noneTypeCrash => (StepResult.raisedTypeError, svc)
        | UpdOutcome.unknown k st? =>
          (StepResult.errUnknownVariable k (keysOf g.state_schema),
           { svc with state := st? })
        | UpdOutcome.ok st? =>
          let svc1 := { svc with state := st? }
          match lookup g.edges n.id with
          | Option.none =>
            (StepResult.completeNoMoreSteps, { svc1 with workflow_complete := true })
          | some e =>
            match resolve_edge_target st? e with
            | Except.error err => (StepResult.raisedValueError err, svc1)
            | Except.ok (ETarget.m _) => (StepResult.raisedTypeError, svc1)
            | Except.ok (ETarget.s tid) =>
              if tid = "END" then
                (StepResult.completeReachedEnd,
                 { svc1 with workflow_complete := true })
              else
                match lookup g.nodes tid with
                | Option.none => (StepResult.raisedKeyError tid, svc1)
                | some n2 =>
                  (StepResult.advanced n.id n2.id n2.intent n2.preferred_actions,
                   { svc1 with current_node := some n2 })

/-- One caller-visible interpreter call (for iterated-behavior claims). -/
inductive Call where
  | query : Call
  | adv : List (String × Value) → Call
deriving DecidableEq, Repr

def runCall (svc : WorkflowService) : Call → StepResult × WorkflowService
  | Call.query => get_next_step svc
  | Call.adv upd => complete_step svc upd

/-- Run a sequence of calls, collecting every result. -/
def runCalls (svc : WorkflowService) :
    List Call → List StepResult × WorkflowService
  | [] => ([], svc)
  | c :: cs =>
    let r := runCall svc c
    let rest := runCalls r.2 cs
    (r.1 :: rest.1, rest.2)

/-- The key-subset invariant of spec section 3: whenever a workflow is
installed and a state exists, every key of the WorkflowState is a key of
the installed schema. -/
def Inv (svc : WorkflowService) : Prop :=
  ∀ g st k, svc.workflow_graph = some g → svc.state = some st →
    k ∈ keysOf st → k ∈ keysOf g.state_schema

/-- Key-subset property of an update-loop outcome (auxiliary to `Inv`
preservation). -/
def outKeysOk (schema : Dict StateVar) : UpdOutcome → Prop
  | UpdOutcome.ok (some st) => ∀ k, k ∈ keysOf st → k ∈ keysOf schema
  | UpdOutcome.unknown _ (some st) => ∀ k, k ∈ keysOf st → k ∈ keysOf schema
  | _ => True

/- Concrete fixture: the wake-up demo workflow of spec section 8. -/

def nodeGentle : Node := ⟨"gentle", "Wake the user gently", ["play_recording"]⟩

def nodeCheck : Node := ⟨"check", "Check whether the user is awake", []⟩

def nodeDone : Node := ⟨"done", "Celebrate", []⟩

def nodeEscalate : Node := ⟨"escalate", "Escalate the wake-up", []⟩

def awakeEdge : Edge :=
  ⟨"e_check", EdgeType.CONDITIONAL,
   ETarget.m [("true", "done"), ("false", "escalate")], some "awake"⟩

def demoWorkflow : Workflow :=
  ⟨[("gentle", nodeGentle), ("check", nodeCheck),
    ("done", nodeDone), ("escalate", nodeEscalate)],
   [("START", ⟨"e_start", EdgeType.NORMAL, ETarget.s "gentle", Option.none⟩),
    ("gentle", ⟨"e_gentle", EdgeType.NORMAL, ETarget.s "check", Option.none⟩),
    ("check", awakeEdge),
    ("done", ⟨"e_done", EdgeType.NORMAL, ETarget.s "END", Option.none⟩)],
   [("awake", ⟨"boolean", Value.bool false⟩)]⟩

def demoSvc : WorkflowService := start_workflow initService "wake_up" demoWorkflow

def demoAtGentle : WorkflowService := { demoSvc with current_node := some nodeGentle }

def demoAtCheck : WorkflowService := { demoSvc with current_node := some nodeCheck }

def demoCompleted : WorkflowService := { demoAtCheck with workflow_complete := true }

/- Auxiliary lemmas. -/

theorem lookup_seedState (schema : Dict StateVar) (k : String) :
    lookup (seedState schema) k = (lookup schema k).map StateVar.default := by
  induction schema with
  | nil => rfl
  | cons p rest ih =>
    by_cases h : p.1 = k
    · simp [seedState, lookup, h]
    · simp only [seedState, List.map_cons, lookup, h, if_false] at ih ⊢
      exact ih

theorem keysOf_seedState (schema : Dict StateVar) :
    keysOf (seedState schema) = keysOf schema := by
  induction schema with
  | nil => rfl
  | cons p rest _ => simp [seedState, keysOf]

theorem keysOf_cons {α : Type} (p : String × α) (rest : Dict α) :
    keysOf (p :: rest) = p.1 :: keysOf rest := rfl

theorem mem_keys_of_lookup_isSome {α : Type} (d : Dict α) (k : String)
    (h : (lookup d k).isSome) : k ∈ keysOf d := by
  induction d with
  | nil => simp [lookup] at h
  | cons p rest ih =>
    obtain ⟨pk, pv⟩ := p
    rw [keysOf_cons, List.mem_cons]
    by_cases hk : pk = k
    · exact Or.inl hk.symm
    · simp only [lookup, hk, if_false] at h
      exact Or.inr (ih h)

theorem keys_setKey {α : Type} (st : Dict α) (k : String) (v : α) :
    ∀ k', k' ∈ keysOf (setKey st k v) → k' = k ∨ k' ∈ keysOf st := by
  induction st with
  | nil =>
    intro k' h
    exact Or.inl (List.mem_singleton.mp h)
  | cons p rest ih =>
    obtain ⟨pk, pv⟩ := p
    intro k' h
    by_cases hk : pk = k
    · rw [setKey, if_pos hk, keysOf_cons, List.mem_cons] at h
      rcases h with h | h
      · exact Or.inr (by rw [keysOf_cons, List.mem_cons]; exact Or.inl h)
      · exact Or.inr (by rw [keysOf_cons, List.mem_cons]; exact Or.inr h)
    · rw [setKey, if_neg hk, keysOf_cons, List.mem_cons] at h
      rcases h with h | h
      · exact Or.inr (by rw [keysOf_cons, List.mem_cons]; exact Or.inl h)
      · rcases ih k' h with h2 | h2
        · exact Or.inl h2
        · exact Or.inr (by rw [keysOf_cons, List.mem_cons]; exact Or.inr h2)

theorem applyUpdates_keys (schema : Dict StateVar) :
    ∀ (upd : List (String × Value)) (st? : Option (Dict Value)),
      (∀ st, st? = some st → ∀ k, k ∈ keysOf st → k ∈ keysOf schema) →
      outKeysOk schema (applyUpdates schema upd st?) := by
  intro upd
  induction upd with
  | nil =>
    intro st? h
    cases st? with
    | none => simp [applyUpdates, outKeysOk]
    | some st => simpa [applyUpdates, outKeysOk] using h st rfl
  | cons p rest ih =>
    intro st? h
    by_cases hdecl : (lookup schema p.1).isNone
    · cases st? with
      | none => simp [applyUpdates, hdecl, outKeysOk]
      | some st => simpa [applyUpdates, hdecl, outKeysOk] using h st rfl
    · cases st? with
      | none => simp [applyUpdates, hdecl, outKeysOk]
      | some st =>
        have hmem : p.1 ∈ keysOf schema := by
          apply mem_keys_of_lookup_isSome
          simpa [Option.isSome_iff_ne_none, Option.isNone_iff_eq_none] using hdecl
        have hsub : ∀ st2, some (setKey st p.1 p.2) = some st2 →
            ∀ k, k ∈ keysOf st2 → k ∈ keysOf schema := by
          intro st2 hst2 k hk
          cases hst2
          rcases keys_setKey st p.1 p.2 k hk with h1 | h1
          · exact h1 ▸ hmem
          · exact h st rfl k h1
        simpa [applyUpdates, hdecl] using ih (some (setKey st p.1 p.2)) hsub

theorem applyUpdates_all_declared (schema : Dict StateVar) :
    ∀ (upd : List (String × Value)),
      (∀ p, p ∈ upd → (lookup schema p.1).isSome) →
      ∀ st, ∃ st2, applyUpdates schema upd (some st) = UpdOutcome.ok (some st2) := by
  intro upd
  induction upd with
  | nil => intro _ st; exact ⟨st, rfl⟩
  | cons p rest ih =>
    intro h st
    have hp : (lookup schema p.1).isSome := h p (by simp)
    have hrest : ∀ q, q ∈ rest → (lookup schema q.1).isSome := by
      intro q hq; exact h q (by simp [hq])
    rcases ih hrest (setKey st p.1 p.2) with ⟨st2, hst2⟩
    refine ⟨st2, ?_⟩
    simpa [applyUpdates, Option.isNone_iff_eq_none,
           Option.isSome_iff_ne_none.mp hp] using hst2

/- Claim theorems. -/

/-- Claim C8: for every prior walker state, `start_workflow` installs the
new definition, resets the WorkflowState so that every declared variable
holds its schema default, clears the current-node pointer and clears the
completion flag — the previous run's state and pointer are discarded
unconditionally. -/
theorem start_resets_everything (svc : WorkflowService) (name : String)
    (wf : Workflow) :
    start_workflow svc name wf =
      { active_workflow := some name
        state := some (seedState wf.state_schema)
        workflow_graph := some wf
        current_node := Option.none
        workflow_complete := false } ∧
    (∀ k sv, lookup wf.state_schema k = some sv →
       lookup (seedState wf.state_schema) k = some sv.default) := by
  refine ⟨rfl, ?_⟩
  intro k sv h
  rw [lookup_seedState, h, Option.map_some']

/-- Witness for C8 at the demo workflow: the schema default of `awake`
seeds the fresh state. -/
theorem start_resets_everything_witness :
    lookup (seedState demoWorkflow.state_schema) "awake" =
      some (Value.bool false) :=
  (start_resets_everything initService "wake_up" demoWorkflow).2 "awake"
    ⟨"boolean", Value.bool false⟩ rfl

/-- Claim C2: for every CONDITIONAL edge and state, resolution fails when
the target is not a mapping or the stateKey is missing (Python-falsy);
otherwise it reads the state value (absent reads as the None marker),
derives the branch key — the literal "true"/"false" for booleans, the
canonical string form otherwise — and returns the target under that key,
failing with BranchNotFoundError carrying the attempted key and the
declared branch keys exactly when the key is absent. -/
theorem conditional_edge_resolution (st : Dict Value) (e : Edge)
    (hty : e.type = EdgeType.CONDITIONAL) :
    (∀ b : Bool, branchKeyOf (Value.bool b) = if b then "true" else "false") ∧
    (∀ v : Value, (∀ b, v ≠ Value.bool b) → branchKeyOf v = pyStr v) ∧
    (∀ t, e.target = ETarget.s t →
       resolve_edge_target (some st) e =
         Except.error (ResolveErr.targetNotDict e.id)) ∧
    (∀ tmap, e.target = ETarget.m tmap →
       (e.state_key = Option.none ∨ e.state_key = some "") →
       resolve_edge_target (some st) e =
         Except.error (ResolveErr.missingStateKey e.id)) ∧
    (∀ tmap k, e.target = ETarget.m tmap → e.state_key = some k → k ≠ "" →
       ((∀ t, lookup tmap (branchKeyOf ((lookup st k).getD Value.none)) = some t →
           resolve_edge_target (some st) e = Except.ok (ETarget.s t)) ∧
        (lookup tmap (branchKeyOf ((lookup st k).getD Value.none)) = Option.none →
           resolve_edge_target (some st) e =
             Except.error (ResolveErr.branchNotFound e.id k
               ((lookup st k).getD Value.none)
               (branchKeyOf ((lookup st k).getD Value.none)) (keysOf tmap))))) := by
  refine ⟨?_, ?_, ?_, ?_, ?_⟩
  · intro b; cases b <;> rfl
  · intro v hv
    cases v with
    | bool b => exact absurd rfl (hv b)
    | int n => rfl
    | str s => rfl
    | none => rfl
  · intro t ht
    simp [resolve_edge_target, hty, ht]
  · intro tmap ht hsk
    rcases hsk with hsk | hsk <;> simp [resolve_edge_target, hty, ht, hsk]
  · intro tmap k ht hsk hne
    constructor
    · intro t hlk
      simp [resolve_edge_target, hty, ht, hsk, hne, hlk]
    · intro hlk
      simp [resolve_edge_target, hty, ht, hsk, hne, hlk]

/-- Witness for C2 at the demo conditional edge: `awake = true` routes to
"done", and an unmatched value fails with the attempted key and the
declared branch keys. -/
theorem conditional_edge_resolution_witness :
    resolve_edge_target (some [("awake", Value.bool true)]) awakeEdge =
      Except.ok (ETarget.s "done") ∧
    resolve_edge_target (some [("awake", Value.int 7)]) awakeEdge =
      Except.error (ResolveErr.branchNotFound "e_check" "awake" (Value.int 7)
        "7" ["true", "false"]) := by
  constructor
  · exact ((conditional_edge_resolution [("awake", Value.bool true)] awakeEdge
      rfl).2.2.2.2 [("true", "done"), ("false", "escalate")] "awake" rfl rfl
      (by decide)).1 "done" (by decide)
  · exact ((conditional_edge_resolution [("awake", Value.int 7)] awakeEdge
      rfl).2.2.2.2 [("true", "done"), ("false", "escalate")] "awake" rfl rfl
      (by decide)).2 (by decide)

/-- Claim C10: a CONDITIONAL edge whose stateKey names a variable absent
from the WorkflowState does not signal an unknown-variable condition:
the missing value reads as the absent marker, its string form "None"
becomes the branch key, and resolution returns the target under "None"
when mapped, else the branch-not-found error. -/
theorem conditional_edge_missing_variable (st : Dict Value) (e : Edge)
    (tmap : Dict String) (k : String) (hty : e.type = EdgeType.CONDITIONAL)
    (ht : e.target = ETarget.m tmap) (hsk : e.state_key = some k)
    (hne : k ≠ "") (habs : lookup st k = Option.none) :
    branchKeyOf ((lookup st k).getD Value.none) = "None" ∧
    (∀ t, lookup tmap "None" = some t →
       resolve_edge_target (some st) e = Except.ok (ETarget.s t)) ∧
    (lookup tmap "None" = Option.none →
       resolve_edge_target (some st) e =
         Except.error (ResolveErr.branchNotFound e.id k Value.none "None"
           (keysOf tmap))) := by
  refine ⟨by rw [habs]; rfl, ?_, ?_⟩
  · intro t hlk
    simp [resolve_edge_target, hty, ht, hsk, hne, habs, branchKeyOf, pyStr, hlk]
  · intro hlk
    simp [resolve_edge_target, hty, ht, hsk, hne, habs, branchKeyOf, pyStr, hlk]

/-- Witness for C10: resolving the demo conditional edge over an empty
state attempts branch key "None" and reports it against the declared
branch keys. -/
theorem conditional_edge_missing_variable_witness :
    resolve_edge_target (some []) awakeEdge =
      Except.error (ResolveErr.branchNotFound "e_check" "awake" Value.none
        "None" ["true", "false"]) :=
  (conditional_edge_missing_variable [] awakeEdge
    [("true", "done"), ("false", "escalate")] "awake" rfl rfl rfl
    (by decide) rfl).2.2 rfl

/-- Claim C1 (demonstrating the code bug): `complete_step` applies the
update batch key by key and returns at the first undeclared key, so a
batch holding a declared key before an undeclared one mutates the
declared key although the call reports the unknown-variable error — the
WorkflowState is not left unchanged. -/
theorem eager_update_not_atomic :
    complete_step demoAtCheck [("awake", Value.bool true), ("bogus", Value.int 1)] =
      (StepResult.errUnknownVariable "bogus" ["awake"],
       { demoAtCheck with state := some [("awake", Value.bool true)] }) ∧
    (complete_step demoAtCheck
        [("awake", Value.bool true), ("bogus", Value.int 1)]).2.state ≠
      demoAtCheck.state := by
  constructor
  · rfl
  · decide

/-- Claim C4: for every freshly started walker, the first `get_next_step`
sets the current-node pointer to exactly the node named by the START
edge's target and returns that node's step view; with no START edge the
call returns the no-starting-edge error and the pointer stays unset. -/
theorem first_step_resolves_start_target (svc : WorkflowService)
    (name : String) (wf : Workflow) :
    (∀ e tid n, lookup wf.edges "START" = some e → e.target = ETarget.s tid →
       lookup wf.nodes tid = some n →
       get_next_step (start_workflow svc name wf) =
         (StepResult.stepView (mkView n wf (seedState wf.state_schema)),
          { start_workflow svc name wf with current_node := some n })) ∧
    (lookup wf.edges "START" = Option.none →
       get_next_step (start_workflow svc name wf) =
         (StepResult.errNoStartingEdge, start_workflow svc name wf) ∧
       (get_next_step (start_workflow svc name wf)).2.current_node =
         Option.none) := by
  constructor
  · intro e tid n he ht hn
    simp [get_next_step, start_workflow, he, ht, hn, viewOf]
  · intro he
    refine ⟨?_, ?_⟩ <;> simp [get_next_step, start_workflow, he]

/-- Witness for C4: the demo workflow's START edge names "gentle", and the
first query resolves it. -/
theorem first_step_resolves_start_target_witness :
    get_next_step demoSvc =
      (StepResult.stepView
        (mkView nodeGentle demoWorkflow (seedState demoWorkflow.state_schema)),
       demoAtGentle) :=
  (first_step_resolves_start_target initService "wake_up" demoWorkflow).1
    ⟨"e_start", EdgeType.NORMAL, ETarget.s "gentle", Option.none⟩ "gentle"
    nodeGentle rfl rfl rfl

/-- Claim C5: `get_next_step` is idempotent — a second call without an
intervening `complete_step` returns the same result and leaves the
object (pointer and WorkflowState included) exactly as the first call
left it. -/
theorem current_step_idempotent (svc : WorkflowService) :
    get_next_step (get_next_step svc).2 = get_next_step svc := by
  rcases svc with ⟨aw, st, g, cn, wc⟩
  cases g with
  | none => rfl
  | some g =>
    cases wc with
    | true => rfl
    | false =>
      cases cn with
      | some n => rfl
      | none =>
        cases he : lookup g.edges "START" with
        | none => simp [get_next_step, he]
        | some e =>
          cases ht : e.target with
          | m tm => simp [get_next_step, he, ht]
          | s tid =>
            cases hn : lookup g.nodes tid with
            | none => simp [get_next_step, he, ht, hn]
            | some n => simp [get_next_step, he, ht, hn]

/-- Claim C6: with the walker active at node A whose outgoing edge is
NORMAL with target node B, `complete_step` moves the pointer to B for
every update batch of declared keys, whatever their values. -/
theorem normal_edge_advances (svc : WorkflowService) (g : Workflow)
    (n : Node) (e : Edge) (b : String) (nb : Node)
    (upd : List (String × Value)) (st : Dict Value)
    (hg : svc.workflow_graph = some g) (hn : svc.current_node = some n)
    (hc : svc.workflow_complete = false) (hst : svc.state = some st)
    (hdecl : ∀ p, p ∈ upd → (lookup g.state_schema p.1).isSome)
    (hedge : lookup g.edges n.id = some e) (hty : e.type = EdgeType.NORMAL)
    (htgt : e.target = ETarget.s b) (hnend : b ≠ "END")
    (hb : lookup g.nodes b = some nb) :
    ∃ st2, complete_step svc upd =
        (StepResult.advanced n.id nb.id nb.intent nb.preferred_actions,
         { svc with state := some st2, current_node := some nb }) ∧
      (complete_step svc upd).2.current_node = some nb := by
  obtain ⟨st2, hupd⟩ := applyUpdates_all_declared g.state_schema upd hdecl st
  rcases svc with ⟨aw, sst, sg, scn, swc⟩
  cases hg
  cases hn
  cases hc
  cases hst
  have h1 : complete_step ⟨aw, some st, some g, some n, false⟩ upd =
      (StepResult.advanced n.id nb.id nb.intent nb.preferred_actions,
       { active_workflow := aw, state := some st2, workflow_graph := some g
         current_node := some nb, workflow_complete := false }) := by
    simp [complete_step, hupd, hedge, resolve_edge_target, hty, htgt, hnend, hb]
  exact ⟨st2, h1, by rw [h1]⟩

/-- Witness for C6: from "gentle" the NORMAL edge advances to "check"
regardless of the declared-key update supplied. -/
theorem normal_edge_advances_witness :
    ∃ st2, complete_step demoAtGentle [("awake", Value.bool true)] =
        (StepResult.advanced "gentle" "check" "Check whether the user is awake"
          [],
         { demoAtGentle with state := some st2, current_node := some nodeCheck }) ∧
      (complete_step demoAtGentle
        [("awake", Value.bool true)]).2.current_node = some nodeCheck :=
  normal_edge_advances demoAtGentle demoWorkflow nodeGentle
    ⟨"e_gentle", EdgeType.NORMAL, ETarget.s "check", Option.none⟩ "check"
    nodeCheck [("awake", Value.bool true)] (seedState demoWorkflow.state_schema)
    rfl rfl rfl rfl (by decide) rfl rfl rfl (by decide) rfl

/-- Claim C9 counterexample: after completion, `complete_step` does not
fail with an error — it returns the "Workflow already complete" message,
which is a completion marker, not an `Error:`-prefixed result. -/
theorem advance_after_completion_is_marker :
    complete_step demoCompleted [] = (StepResult.alreadyComplete, demoCompleted) ∧
    isErrorResult StepResult.alreadyComplete = false ∧
    isCompletionMarker StepResult.alreadyComplete = true :=
  ⟨rfl, rfl, rfl⟩

/-- Claim C9 (amended): `complete_step` with no definition installed, or
before the first `get_next_step` has resolved the entry node, fails with
the invalid-call error and changes nothing; called after completion it
returns a completion marker (not an error) and changes nothing. -/
theorem advance_requires_active_walker (svc : WorkflowService) :
    (svc.workflow_graph = Option.none →
       ∀ upd, complete_step svc upd = (StepResult.errNoActiveWorkflow, svc) ∧
         isErrorResult StepResult.errNoActiveWorkflow = true) ∧
    (∀ g, svc.workflow_graph = some g → svc.current_node = Option.none →
       ∀ upd, complete_step svc upd = (StepResult.errNoCurrentNode, svc) ∧
         isErrorResult StepResult.errNoCurrentNode = true) ∧
    (∀ g n, svc.workflow_graph = some g → svc.current_node = some n →
       svc.workflow_complete = true →
       ∀ upd, complete_step svc upd = (StepResult.alreadyComplete, svc) ∧
         isCompletionMarker StepResult.alreadyComplete = true ∧
         isErrorResult StepResult.alreadyComplete = false) := by
  rcases svc with ⟨aw, sst, sg, scn, swc⟩
  refine ⟨?_, ?_, ?_⟩
  · intro hg upd
    cases hg
    exact ⟨rfl, rfl⟩
  · intro g hg hn upd
    cases hg
    cases hn
    exact ⟨rfl, rfl⟩
  · intro g n hg hn hc upd
    cases hg
    cases hn
    cases hc
    exact ⟨rfl, rfl, rfl⟩

/-- Witness for C9 (amended): on a fresh service with nothing installed,
`complete_step` returns the no-active-workflow error and leaves the
object untouched. -/
theorem advance_requires_active_walker_witness :
    complete_step initService [] = (StepResult.errNoActiveWorkflow, initService) ∧
    isErrorResult StepResult.errNoActiveWorkflow = true :=
  (advance_requires_active_walker initService).1 rfl []

/-- Claim C3: a `complete_step` at a node with no outgoing edge, or whose
edge resolves to END, sets the completion flag and returns a completion
marker; from then on every sequence of further `get_next_step` /
`complete_step` calls returns only completion markers (never errors) and
leaves the object — current-node pointer included — exactly as it is. -/
theorem completion_is_terminal (svc : WorkflowService) :
    (∀ g n upd st2?, svc.workflow_graph = some g → svc.current_node = some n →
       svc.workflow_complete = false →
       applyUpdates g.state_schema upd svc.state = UpdOutcome.ok st2? →
       lookup g.edges n.id = Option.none →
       complete_step svc upd =
         (StepResult.completeNoMoreSteps,
          { svc with state := st2?, workflow_complete := true }) ∧
       isCompletionMarker StepResult.completeNoMoreSteps = true) ∧
    (∀ g n e upd st2?, svc.workflow_graph = some g → svc.current_node = some n →
       svc.workflow_complete = false →
       applyUpdates g.state_schema upd svc.state = UpdOutcome.ok st2? →
       lookup g.edges n.id = some e →
       resolve_edge_target st2? e = Except.ok (ETarget.s "END") →
       complete_step svc upd =
         (StepResult.completeReachedEnd,
          { svc with state := st2?, workflow_complete := true }) ∧
       isCompletionMarker StepResult.completeReachedEnd = true) ∧
    (∀ g n, svc.workflow_graph = some g → svc.current_node = some n →
       svc.workflow_complete = true →
       ∀ calls, (runCalls svc calls).2 = svc ∧
         (∀ r, r ∈ (runCalls svc calls).1 →
            isCompletionMarker r = true ∧ isErrorResult r = false)) := by
  rcases svc with ⟨aw, sst, sg, scn, swc⟩
  refine ⟨?_, ?_, ?_⟩
  · intro g n upd st2? hg hn hc hupd hedge
    cases hg; cases hn; cases hc
    refine ⟨?_, rfl⟩
    simp only at hupd
    simp [complete_step, hupd, hedge]
  · intro g n e upd st2? hg hn hc hupd hedge hres
    cases hg; cases hn; cases hc
    refine ⟨?_, rfl⟩
    simp only at hupd
    simp [complete_step, hupd, hedge, hres]
  · intro g n hg hn hc calls
    cases hg; cases hn; cases hc
    induction calls with
    | nil =>
      exact ⟨rfl, fun r hr => absurd hr (List.not_mem_nil r)⟩
    | cons c cs ih =>
      rcases ih with ⟨ih2, ih1⟩
      cases c with
      | query =>
        refine ⟨?_, ?_⟩
        · simpa [runCalls, runCall, get_next_step] using ih2
        · intro r hr
          simp [runCalls, runCall, get_next_step] at hr
          rcases hr with hr | hr
          · subst hr; exact ⟨rfl, rfl⟩
          · exact ih1 r hr
      | adv upd =>
        refine ⟨?_, ?_⟩
        · simpa [runCalls, runCall, complete_step] using ih2
        · intro r hr
          simp [runCalls, runCall, complete_step] at hr
          rcases hr with hr | hr
          · subst hr; exact ⟨rfl, rfl⟩
          · exact ih1 r hr

/-- Witness for C3: the completed demo service is a fixed point of any
call sequence, every result being a completion marker. -/
theorem completion_is_terminal_witness :
    (runCalls demoCompleted
        [Call.query, Call.adv [("awake", Value.bool true)], Call.query]).2 =
      demoCompleted ∧
    (∀ r, r ∈ (runCalls demoCompleted
        [Call.query, Call.adv [("awake", Value.bool true)], Call.query]).1 →
      isCompletionMarker r = true ∧ isErrorResult r = false) :=
  (completion_is_terminal demoCompleted).2.2 demoWorkflow nodeCheck rfl rfl rfl
    [Call.query, Call.adv [("awake", Value.bool true)], Call.query]

theorem get_next_step_fields (svc : WorkflowService) :
    (get_next_step svc).2.workflow_graph = svc.workflow_graph ∧
    (get_next_step svc).2.state = svc.state := by
  rcases svc with ⟨aw, st, g, cn, wc⟩
  cases g with
  | none => exact ⟨rfl, rfl⟩
  | some g =>
    cases wc with
    | true => exact ⟨rfl, rfl⟩
    | false =>
      cases cn with
      | some n => exact ⟨rfl, rfl⟩
      | none =>
        cases he : lookup g.edges "START" with
        | none => simp [get_next_step, he]
        | some e =>
          cases ht : e.target with
          | m tm => simp [get_next_step, he, ht]
          | s tid =>
            cases hn : lookup g.nodes tid with
            | none => simp [get_next_step, he, ht, hn]
            | some n => simp [get_next_step, he, ht, hn]

/-- Claim C7: the key-subset invariant — every key of the WorkflowState is
declared in the installed schema — is preserved by every operation:
`start_workflow` seeds only declared keys, `stop_workflow` clears the
state, `get_next_step` never writes it, and `complete_step` writes only
keys that pass the schema check. -/
theorem state_keys_subset_schema (svc : WorkflowService) (hInv : Inv svc) :
    (∀ name wf, Inv (start_workflow svc name wf)) ∧
    Inv (stop_workflow svc) ∧
    Inv (get_next_step svc).2 ∧
    (∀ upd, Inv (complete_step svc upd).2) := by
  refine ⟨?_, ?_, ?_, ?_⟩
  · intro name wf g st k hg hst hk
    have hg2 : wf = g := Option.some.inj hg
    have hst2 : seedState wf.state_schema = st := Option.some.inj hst
    subst hg2
    subst hst2
    rwa [keysOf_seedState] at hk
  · intro g st k hg
    exact absurd hg (by simp [stop_workflow, initService])
  · intro g st k hg hst hk
    obtain ⟨h1, h2⟩ := get_next_step_fields svc
    exact hInv g st k (h1 ▸ hg) (h2 ▸ hst) hk
  · intro upd
    rcases svc with ⟨aw, sst, sg, scn, swc⟩
    cases sg with
    | none => exact hInv
    | some g =>
      cases scn with
      | none => exact hInv
      | some n =>
        cases swc with
        | true => exact hInv
        | false =>
          have hsub : ∀ st, sst = some st → ∀ k, k ∈ keysOf st →
              k ∈ keysOf g.state_schema := by
            intro st hst k hk
            exact hInv g st k rfl hst hk
          have hout := applyUpdates_keys g.state_schema upd sst hsub
          have hInvOf : ∀ (st2? : Option (Dict Value)),
              (∀ st2, st2? = some st2 → ∀ k, k ∈ keysOf st2 →
                 k ∈ keysOf g.state_schema) →
              ∀ (sv : WorkflowService), sv.workflow_graph = some g →
                sv.state = st2? → Inv sv := by
            intro st2? hs sv hg2 hst2 g' st' k' hg' hst' hk'
            have : g = g' := Option.some.inj (hg2 ▸ hg')
            subst this
            exact hs st' (hst2 ▸ hst') k' hk'
          cases hA : applyUpdates g.state_schema upd sst with
          | noneTypeCrash =>
            simpa [complete_step, hA] using hInv
          | unknown k st2? =>
            rw [hA] at hout
            refine hInvOf st2? ?_ _ ?_ ?_
            · intro st2 hst2
              cases st2? with
              | none => cases hst2
              | some s2 =>
                cases hst2
                exact hout
            · simp [complete_step, hA]
            · simp [complete_step, hA]
          | ok st2? =>
            rw [hA] at hout
            have hs2 : ∀ st2, st2? = some st2 → ∀ k, k ∈ keysOf st2 →
                k ∈ keysOf g.state_schema := by
              intro st2 hst2
              cases st2? with
              | none => cases hst2
              | some s2 =>
                cases hst2
                exact hout
            cases hE : lookup g.edges n.id with
            | none =>
              refine hInvOf st2? hs2 _ ?_ ?_ <;> simp [complete_step, hA, hE]
            | some e =>
              cases hR : resolve_edge_target st2? e with
              | error err =>
                refine hInvOf st2? hs2 _ ?_ ?_ <;> simp [complete_step, hA, hE, hR]
              | ok tgt =>
                cases tgt with
                | m tm =>
                  refine hInvOf st2? hs2 _ ?_ ?_ <;>
                    simp [complete_step, hA, hE, hR]
                | s tid =>
                  by_cases hend : tid = "END"
                  · refine hInvOf st2? hs2 _ ?_ ?_ <;>
                      simp [complete_step, hA, hE, hR, hend]
                  · cases hN : lookup g.nodes tid with
                    | none =>
                      refine hInvOf st2? hs2 _ ?_ ?_ <;>
                        simp [complete_step, hA, hE, hR, hend, hN]
                    | some n2 =>
                      refine hInvOf st2? hs2 _ ?_ ?_ <;>
                        simp [complete_step, hA, hE, hR, hend, hN]

/-- Witness for C7: the invariant holds after starting the demo workflow
on a fresh service. -/
theorem state_keys_subset_schema_witness :
    Inv (start_workflow initService "wake_up" demoWorkflow) :=
  (state_keys_subset_schema initService
    (fun _g _st _k hg _ _ => Option.noConfusion hg)).1 "wake_up" demoWorkflow

end LeLamp

